import Mathlib

/-!
Verification of the VaultFlow lending protocol core against its
natural-language specification.

The development is a shallow embedding of the Solidity sources:
  * `contracts/libraries/Math.sol`  — fixed-point arithmetic (wad/ray),
    percentages, power, compounding, health factor;
  * `contracts/tokens/aToken.sol`   — the scaled-balance claim token;
  * the `LendingPool` contract      — entry-point validation logic;
  * `contracts/oracles/ChainlinkPriceOracle.sol` — price lookup with
    try/catch fallback to the cached last-known price.

`uint256` values are embedded as `Nat` with explicit bounds checks
mirroring the Solidity `require` statements and checked arithmetic of
Solidity 0.8 (an overflowing operation reverts; it never wraps).
Fallible operations return `Except`; an `error` result models a revert,
under which no state change survives.
-/

deriving instance DecidableEq for Except

namespace VaultFlow

/-- Largest representable `uint256` value, `2^256 - 1`. -/
def uintMax : Nat := 2 ^ 256 - 1

/-- `Math.WAD = 1e18` (coarse "unit" scale). -/
def WAD : Nat := 10 ^ 18

/-- `Math.HALF_WAD = 0.5e18`. -/
def HALF_WAD : Nat := 5 * 10 ^ 17

/-- `Math.RAY = 1e27` (fine "ray" scale). -/
def RAY : Nat := 10 ^ 27

/-- `Math.HALF_RAY = 0.5e27`. -/
def HALF_RAY : Nat := 5 * 10 ^ 26

/-- Reverting outcomes of the `Math` library: `require` failures for
multiplication/addition overflow and for division by zero. -/
inductive MathErr where
  | overflow
  | divByZero
deriving DecidableEq, Repr

/-- `Math.wadMul(a, b)`: zero short-circuit, overflow guard
`require(a <= (type(uint256).max - HALF_WAD) / b)`, then
`(a * b + HALF_WAD) / WAD`. -/
def wadMul (a b : Nat) : Except MathErr Nat :=
  if a = 0 ∨ b = 0 then .ok 0
  else if a ≤ (uintMax - HALF_WAD) / b then .ok ((a * b + HALF_WAD) / WAD)
  else .error .overflow

/-- `Math.wadDiv(a, b)`: `require(b != 0)`, overflow guard
`require(a <= (type(uint256).max - b/2) / WAD)`, then
`(a * WAD + b/2) / b`. -/
def wadDiv (a b : Nat) : Except MathErr Nat :=
  if b = 0 then .error .divByZero
  else if a ≤ (uintMax - b / 2) / WAD then .ok ((a * WAD + b / 2) / b)
  else .error .overflow

/-- `Math.rayMul(a, b)`: zero short-circuit, overflow guard
`require(a <= (type(uint256).max - HALF_RAY) / b)`, then
`(a * b + HALF_RAY) / RAY`. -/
def rayMul (a b : Nat) : Except MathErr Nat :=
  if a = 0 ∨ b = 0 then .ok 0
  else if a ≤ (uintMax - HALF_RAY) / b then .ok ((a * b + HALF_RAY) / RAY)
  else .error .overflow

/-- `Math.rayDiv(a, b)`: `require(b != 0)`, overflow guard
`require(a <= (type(uint256).max - b/2) / RAY)`, then
`(a * RAY + b/2) / b`. -/
def rayDiv (a b : Nat) : Except MathErr Nat :=
  if b = 0 then .error .divByZero
  else if a ≤ (uintMax - b / 2) / RAY then .ok ((a * RAY + b / 2) / b)
  else .error .overflow

/-- `Math.percentMul(amount, percentage)`: zero short-circuit, guard
`require(amount <= (type(uint256).max - HALF_WAD) / percentage)`, then
`(amount * percentage + HALF_WAD) / WAD`.  Note: the divisor is `WAD`,
even though the doc comment of the function says `percentage` is in
basis points with `10000 = 100%`. -/
def percentMul (amount percentage : Nat) : Except MathErr Nat :=
  if amount = 0 ∨ percentage = 0 then .ok 0
  else if amount ≤ (uintMax - HALF_WAD) / percentage then
    .ok ((amount * percentage + HALF_WAD) / WAD)
  else .error .overflow

/-- `Math.percentMulBps(amount, bps)`: zero short-circuit, guard
`require(amount <= (type(uint256).max - 5000) / bps)`, then
`(amount * bps + 5000) / 10000`. -/
def percentMulBps (amount bps : Nat) : Except MathErr Nat :=
  if amount = 0 ∨ bps = 0 then .ok 0
  else if amount ≤ (uintMax - 5000) / bps then
    .ok ((amount * bps + 5000) / 10000)
  else .error .overflow

/-- The loop of `Math.rayPow`: on entry `n` has already been halved once;
each iteration squares `x` and, when the current `n` is odd, multiplies
it into the accumulator `z`.  `fuel` only bounds recursion depth; since
`n` halves on each step, any `fuel ≥ n` gives the loop's exact
behaviour. -/
def rayPowGo (x z n fuel : Nat) : Except MathErr Nat :=
  match fuel, n with
  | _, 0 => .ok z
  | 0, _ + 1 => .ok z
  | fuel' + 1, n' + 1 => do
    let x2 ← rayMul x x
    let z2 ← if (n' + 1) % 2 = 1 then rayMul z x2 else .ok z
    rayPowGo x2 z2 ((n' + 1) / 2) fuel'

/-- `Math.rayPow(x, n)`: `z = n % 2 != 0 ? x : RAY`, then the
square-and-multiply loop `for (n /= 2; n != 0; n /= 2)`. -/
def rayPow (x n : Nat) : Except MathErr Nat :=
  rayPowGo x (if n % 2 = 1 then x else RAY) (n / 2) (n / 2)

/-- `Math.compoundInterest(principal, rate, time)`: returns the principal
unchanged when any argument is zero, otherwise
`rayMul(principal, rayPow(rayDiv(rate, RAY), time))`. -/
def compoundInterest (principal rate time : Nat) : Except MathErr Nat :=
  if principal = 0 ∨ rate = 0 ∨ time = 0 then .ok principal
  else do
    let ratePerPeriod ← rayDiv rate RAY
    let compoundFactor ← rayPow ratePerPeriod time
    rayMul principal compoundFactor

/-- `Math.calculateHealthFactor(collateralValue, borrowValue,
liquidationThreshold)`: `type(uint256).max` when the borrow value is
zero, otherwise `rayDiv(percentMulBps(collateralValue, threshold),
borrowValue)`. -/
def calculateHealthFactor (collateralValue borrowValue liquidationThreshold : Nat) :
    Except MathErr Nat :=
  if borrowValue = 0 then .ok uintMax
  else do
    let thresholdValue ← percentMulBps collateralValue liquidationThreshold
    rayDiv thresholdValue borrowValue

/-- Specification-side rounding: `roundHalfUp n d` is the integer nearest
to the rational `n / d`, halves rounded up (`(2n + d) / (2d)` in
integer division). -/
def roundHalfUp (n d : Nat) : Nat := (2 * n + d) / (2 * d)

/-- The specification's reference compounding: ray-multiply the ray unit
by `x` exactly `n` times. -/
def rayRef (x : Nat) : Nat → Except MathErr Nat
  | 0 => .ok RAY
  | n + 1 => do
    let r ← rayRef x n
    rayMul r x

/-! ### Arithmetic helper lemmas -/

theorem two_mul_add_one_div_two_mul (m d : Nat) (hd : 0 < d) :
    (2 * m + 1) / (2 * d) = m / d := by
  have h1 : d * (m / d) ≤ m := Nat.mul_div_le m d
  have h2 : m < d * (m / d) + d := by
    have := Nat.div_add_mod m d
    have := Nat.mod_lt m hd
    omega
  have lo : (m / d) * (2 * d) ≤ 2 * m + 1 := by
    have : (m / d) * (2 * d) = 2 * (d * (m / d)) := by ring
    omega
  have hi : 2 * m + 1 < (m / d + 1) * (2 * d) := by
    have : (m / d + 1) * (2 * d) = 2 * (d * (m / d) + d) := by ring
    omega
  exact Nat.div_eq_of_lt_le lo hi

theorem half_up_div_eq_roundHalfUp (n d : Nat) (hd : 0 < d) :
    (n + d / 2) / d = roundHalfUp n d := by
  unfold roundHalfUp
  rcases Nat.even_or_odd d with ⟨k, hk⟩ | ⟨k, hk⟩
  · subst hk
    have hk0 : 0 < k := by omega
    have e2 : (k + k) / 2 = k := by omega
    rw [e2]
    have e3 : 2 * n + (k + k) = 2 * (n + k) := by ring
    have e4 : 2 * (k + k) = 2 * (2 * k) := by ring
    have e5 : k + k = 2 * k := by ring
    rw [e3, e4, Nat.mul_div_mul_left (n + k) (2 * k) (by omega), e5]
  · subst hk
    have e2 : (2 * k + 1) / 2 = k := by omega
    rw [e2]
    have e3 : 2 * n + (2 * k + 1) = 2 * (n + k) + 1 := by ring
    rw [e3, two_mul_add_one_div_two_mul (n + k) (2 * k + 1) (by omega)]

/-- The overflow guard `a <= limit / b` is exactly `a * b <= limit`. -/
theorem guard_iff (a b limit : Nat) (hb : 0 < b) :
    a ≤ limit / b ↔ a * b ≤ limit :=
  Nat.le_div_iff_mul_le hb

theorem ok_bind {ε α β : Type} (a : α) (f : α → Except ε β) :
    (Except.ok a >>= f) = f a := rfl

theorem error_bind {ε α β : Type} (e : ε) (f : α → Except ε β) :
    ((Except.error e : Except ε α) >>= f) = Except.error e := rfl

/-! ### Characterizations of the fixed-point primitives -/

/-- `wadMul` in closed form: exact round-half-up at wad scale, failing
exactly when the product does not fit in the range left before the
rounding term is added. -/
theorem wadMul_eq (a b : Nat) :
    wadMul a b = (if a = 0 ∨ b = 0 then .ok 0
      else if a * b ≤ uintMax - HALF_WAD then .ok (roundHalfUp (a * b) WAD)
      else .error .overflow) := by
  unfold wadMul
  by_cases h0 : a = 0 ∨ b = 0
  · simp [h0]
  · have hb : 0 < b := by
      rcases Nat.eq_zero_or_pos b with hb | hb
      · exact absurd (Or.inr hb) h0
      · exact hb
    have hg := guard_iff a b (uintMax - HALF_WAD) hb
    rw [if_neg h0, if_neg h0]
    by_cases hle : a * b ≤ uintMax - HALF_WAD
    · rw [if_pos (hg.mpr hle), if_pos hle,
        show HALF_WAD = WAD / 2 by decide,
        half_up_div_eq_roundHalfUp (a * b) WAD (by decide)]
    · rw [if_neg (fun h => hle (hg.mp h)), if_neg hle]

/-- `rayMul` in closed form, analogous to `wadMul_eq`. -/
theorem rayMul_eq (a b : Nat) :
    rayMul a b = (if a = 0 ∨ b = 0 then .ok 0
      else if a * b ≤ uintMax - HALF_RAY then .ok (roundHalfUp (a * b) RAY)
      else .error .overflow) := by
  unfold rayMul
  by_cases h0 : a = 0 ∨ b = 0
  · simp [h0]
  · have hb : 0 < b := by
      rcases Nat.eq_zero_or_pos b with hb | hb
      · exact absurd (Or.inr hb) h0
      · exact hb
    have hg := guard_iff a b (uintMax - HALF_RAY) hb
    rw [if_neg h0, if_neg h0]
    by_cases hle : a * b ≤ uintMax - HALF_RAY
    · rw [if_pos (hg.mpr hle), if_pos hle,
        show HALF_RAY = RAY / 2 by decide,
        half_up_div_eq_roundHalfUp (a * b) RAY (by decide)]
    · rw [if_neg (fun h => hle (hg.mp h)), if_neg hle]

/-- `wadDiv` in closed form: division by zero is its own failure; the
overflow guard is on the scaled numerator `a * WAD`; the result is the
exact round-half-up quotient. -/
theorem wadDiv_eq (a b : Nat) :
    wadDiv a b = (if b = 0 then .error .divByZero
      else if a * WAD ≤ uintMax - b / 2 then .ok (roundHalfUp (a * WAD) b)
      else .error .overflow) := by
  unfold wadDiv
  by_cases hb0 : b = 0
  · simp [hb0]
  · have hb : 0 < b := Nat.pos_of_ne_zero hb0
    have hg := guard_iff a WAD (uintMax - b / 2) (by decide)
    rw [if_neg hb0, if_neg hb0]
    by_cases hle : a * WAD ≤ uintMax - b / 2
    · rw [if_pos (hg.mpr hle), if_pos hle, half_up_div_eq_roundHalfUp (a * WAD) b hb]
    · rw [if_neg (fun h => hle (hg.mp h)), if_neg hle]

/-- `rayDiv` in closed form, analogous to `wadDiv_eq`. -/
theorem rayDiv_eq (a b : Nat) :
    rayDiv a b = (if b = 0 then .error .divByZero
      else if a * RAY ≤ uintMax - b / 2 then .ok (roundHalfUp (a * RAY) b)
      else .error .overflow) := by
  unfold rayDiv
  by_cases hb0 : b = 0
  · simp [hb0]
  · have hb : 0 < b := Nat.pos_of_ne_zero hb0
    have hg := guard_iff a RAY (uintMax - b / 2) (by decide)
    rw [if_neg hb0, if_neg hb0]
    by_cases hle : a * RAY ≤ uintMax - b / 2
    · rw [if_pos (hg.mpr hle), if_pos hle, half_up_div_eq_roundHalfUp (a * RAY) b hb]
    · rw [if_neg (fun h => hle (hg.mp h)), if_neg hle]

/-- A successful `percentMulBps` is the exact round-half-up basis-point
percentage. -/
theorem percentMulBps_ok {a bps w : Nat} (h : percentMulBps a bps = .ok w) :
    w = roundHalfUp (a * bps) 10000 := by
  unfold percentMulBps at h
  split_ifs at h with h0 hg
  · have hz : a * bps = 0 := by
      rcases h0 with h0 | h0 <;> simp [h0]
    injection h with h
    rw [← h, hz]
    decide
  · injection h with h
    rw [← h, show (5000 : Nat) = 10000 / 2 by decide,
      half_up_div_eq_roundHalfUp (a * bps) 10000 (by decide)]

/-- A successful `rayDiv` with nonzero divisor is the exact
round-half-up ray-scaled quotient. -/
theorem rayDiv_ok {a b v : Nat} (h : rayDiv a b = .ok v) (hb : b ≠ 0) :
    v = roundHalfUp (a * RAY) b := by
  rw [rayDiv_eq, if_neg hb] at h
  split_ifs at h
  injection h with h
  exact h.symm

/-- Dividing a ray quantity by the ray unit is the identity (when the
overflow guard admits it): this is the `ratePerPeriod` normalization
inside `compoundInterest`. -/
theorem rayDiv_ray_self (r : Nat) (hr : r ≤ (uintMax - RAY / 2) / RAY) :
    rayDiv r RAY = .ok r := by
  unfold rayDiv
  rw [if_neg (by decide : ¬ (RAY = 0)), if_pos hr]
  have h1 : r * RAY = RAY * r := Nat.mul_comm r RAY
  rw [h1, Nat.mul_add_div (by decide : 0 < RAY) r (RAY / 2),
    show RAY / 2 / RAY = 0 from by decide, Nat.add_zero]

/-- Any successful `rayDiv _ RAY` returns its numerator unchanged. -/
theorem rayDiv_ray_ok {r v : Nat} (h : rayDiv r RAY = .ok v) : v = r := by
  unfold rayDiv at h
  rw [if_neg (by decide : ¬ (RAY = 0))] at h
  split_ifs at h
  injection h with h
  rw [← h, Nat.mul_comm r RAY, Nat.mul_add_div (by decide : 0 < RAY) r (RAY / 2),
    show RAY / 2 / RAY = 0 from by decide, Nat.add_zero]

/-- `rayMul RAY y` is the identity on successful results. -/
theorem rayMul_ray_ok {y v : Nat} (h : rayMul RAY y = .ok v) : v = y := by
  unfold rayMul at h
  split_ifs at h with h0
  · injection h with h
    rcases h0 with h0 | h0
    · exact absurd h0 (by decide)
    · omega
  · injection h with h
    rw [← h, Nat.mul_add_div (by decide : 0 < RAY) y HALF_RAY,
      show HALF_RAY / RAY = 0 from by decide, Nat.add_zero]

/-- Ray multiplication is commutative, failure cases included. -/
theorem rayMul_comm (a b : Nat) : rayMul a b = rayMul b a := by
  unfold rayMul
  by_cases h0 : a = 0 ∨ b = 0
  · rw [if_pos h0, if_pos (Or.symm h0)]
  · have ha : 0 < a := by
      rcases Nat.eq_zero_or_pos a with h | h
      · exact absurd (Or.inl h) h0
      · exact h
    have hb : 0 < b := by
      rcases Nat.eq_zero_or_pos b with h | h
      · exact absurd (Or.inr h) h0
      · exact h
    rw [if_neg h0, if_neg (fun h => h0 (Or.symm h))]
    by_cases hle : a * b ≤ uintMax - HALF_RAY
    · rw [if_pos ((guard_iff a b _ hb).mpr hle),
        if_pos ((guard_iff b a _ ha).mpr (by rw [Nat.mul_comm]; exact hle)),
        Nat.mul_comm a b]
    · rw [if_neg (fun h => hle ((guard_iff a b _ hb).mp h)),
        if_neg (fun h => hle (by rw [Nat.mul_comm a b]; exact (guard_iff b a _ ha).mp h))]

/-- A successful ray product with a factor at most the ray unit cannot
exceed the other factor. -/
theorem rayMul_ok_le {a b v : Nat} (h : rayMul a b = .ok v) (hb : b ≤ RAY) : v ≤ a := by
  unfold rayMul at h
  split_ifs at h with h0
  · injection h with h
    omega
  · injection h with h
    rw [← h]
    calc (a * b + HALF_RAY) / RAY
        ≤ (a * RAY + HALF_RAY) / RAY := by
          exact Nat.div_le_div_right (Nat.add_le_add_right (Nat.mul_le_mul_left a hb) _)
      _ = a := by
          rw [Nat.mul_comm a RAY, Nat.mul_add_div (by decide : 0 < RAY) a HALF_RAY,
            show HALF_RAY / RAY = 0 from by decide, Nat.add_zero]

/-- Every intermediate of the `rayPow` loop stays at or below the ray
unit when both the base and the accumulator start there. -/
theorem rayPowGo_le {fuel : Nat} : ∀ {x z n v : Nat}, x ≤ RAY → z ≤ RAY →
    rayPowGo x z n fuel = .ok v → v ≤ RAY := by
  induction fuel with
  | zero =>
    intro x z n v hx hz h
    unfold rayPowGo at h
    match n, h with
    | 0, h => injection h with h; omega
    | n' + 1, h => injection h with h; omega
  | succ fuel ih =>
    intro x z n v hx hz h
    match n, h with
    | 0, h =>
      unfold rayPowGo at h
      injection h with h
      omega
    | n' + 1, h =>
      unfold rayPowGo at h
      cases hxx : rayMul x x with
      | error e => rw [hxx, error_bind] at h; cases h
      | ok x2 =>
        rw [hxx, ok_bind] at h
        have hx2 : x2 ≤ RAY := le_trans (rayMul_ok_le hxx hx) hx
        by_cases hodd : (n' + 1) % 2 = 1
        · rw [if_pos hodd] at h
          cases hzz : rayMul z x2 with
          | error e => rw [hzz, error_bind] at h; cases h
          | ok z2 =>
            rw [hzz, ok_bind] at h
            have hz2 : z2 ≤ RAY := le_trans (rayMul_ok_le hzz hx2) hz
            exact ih hx2 hz2 h
        · rw [if_neg hodd, ok_bind] at h
          exact ih hx2 hz h

/-- A successful `rayPow` on a base at most the ray unit stays at or
below the ray unit. -/
theorem rayPow_le {x n v : Nat} (hx : x ≤ RAY) (h : rayPow x n = .ok v) : v ≤ RAY := by
  unfold rayPow at h
  by_cases hodd : n % 2 = 1
  · rw [if_pos hodd] at h
    exact rayPowGo_le hx hx h
  · rw [if_neg hodd] at h
    exact rayPowGo_le hx (le_refl RAY) h

/-! ### Claims about the fixed-point library -/

/-- Claim C5 — counterexample.  The claim states that each of the four
fixed-point operations "either returns the exact round-half-up result
... or fails with an arithmetic-overflow error".  `wadDiv 1 0` fails
with the division-by-zero error, which is a distinct failure from the
overflow error, even though its scaled numerator `1 * WAD` is far inside
the representable range. -/
theorem c5_fixed_point_counterexample :
    wadDiv 1 0 = .error MathErr.divByZero ∧
    MathErr.divByZero ≠ MathErr.overflow ∧
    1 * WAD ≤ uintMax - 0 / 2 := by
  refine ⟨rfl, by decide, by decide⟩

/-- Claim C5 — amended.  Each fixed-point operation is total-with-revert
and never wraps or saturates: multiplication returns the exact
round-half-up product at its scale whenever the product fits in the
range left before the rounding term (`a * b ≤ 2^256 - 1 - half`), and
fails with the overflow error otherwise, the check being performed
before the multiplication; division fails with the division-by-zero
error when the divisor is zero, and otherwise returns the exact
round-half-up quotient when the scaled numerator fits
(`a * scale ≤ 2^256 - 1 - b/2`), failing with the overflow error
otherwise. -/
theorem c5_fixed_point_amended (a b : Nat) :
    wadMul a b = (if a = 0 ∨ b = 0 then .ok 0
      else if a * b ≤ uintMax - HALF_WAD then .ok (roundHalfUp (a * b) WAD)
      else .error .overflow) ∧
    rayMul a b = (if a = 0 ∨ b = 0 then .ok 0
      else if a * b ≤ uintMax - HALF_RAY then .ok (roundHalfUp (a * b) RAY)
      else .error .overflow) ∧
    wadDiv a b = (if b = 0 then .error .divByZero
      else if a * WAD ≤ uintMax - b / 2 then .ok (roundHalfUp (a * WAD) b)
      else .error .overflow) ∧
    rayDiv a b = (if b = 0 then .error .divByZero
      else if a * RAY ≤ uintMax - b / 2 then .ok (roundHalfUp (a * RAY) b)
      else .error .overflow) :=
  ⟨wadMul_eq a b, rayMul_eq a b, wadDiv_eq a b, rayDiv_eq a b⟩

/-- Claim C6 — the code bug.  The spec (and the doc comment of
`percentMul` itself) takes basis points with `10000 = 100%` and
round-half-up semantics, so a hundred percent of 100 must be 100.
`percentMul` divides by `WAD = 1e18` instead of 10000 and returns 0;
its sibling `percentMulBps` (the version `calculateHealthFactor` uses)
returns the specified round-half-up result. -/
theorem c6_percent_bug :
    percentMul 100 10000 = .ok 0 ∧
    percentMulBps 100 10000 = .ok 100 ∧
    roundHalfUp (100 * 10000) 10000 = 100 := by
  refine ⟨by decide, by decide, by decide⟩

/-- Claim C1: `calculateHealthFactor` returns the maximum `uint256` when
the borrow value is zero; otherwise any value it returns is the
ray-scaled round-half-up quotient of the collateral weighted by the
liquidation threshold in basis points (itself rounded half up) divided
by the borrow value; and on the spec's Scenario 3 numbers
(collateral 1000, threshold 9500 bps, debt 500) it returns exactly
1.9 ray. -/
theorem c1_healthFactor (c d t : Nat) :
    calculateHealthFactor c 0 t = .ok uintMax ∧
    (∀ v, d ≠ 0 → calculateHealthFactor c d t = .ok v →
      v = roundHalfUp (roundHalfUp (c * t) 10000 * RAY) d) ∧
    calculateHealthFactor 1000 500 9500 = .ok (19 * 10 ^ 26) := by
  refine ⟨rfl, ?_, by decide⟩
  intro v hd hv
  unfold calculateHealthFactor at hv
  rw [if_neg hd] at hv
  cases hpb : percentMulBps c t with
  | error e => rw [hpb, error_bind] at hv; cases hv
  | ok w =>
    rw [hpb, ok_bind] at hv
    rw [← percentMulBps_ok hpb]
    exact rayDiv_ok hv hd

/-- Claim C1 — witness: the scenario instance of the quotient clause. -/
theorem c1_healthFactor_witness :
    (19 * 10 ^ 26 : Nat) = roundHalfUp (roundHalfUp (1000 * 9500) 10000 * RAY) 500 :=
  (c1_healthFactor 1000 500 9500).2.1 (19 * 10 ^ 26) (by decide) (by decide)

/-- The claim's "bare" compounding expression
`rayMul(principal, rayPow(rate, time))`, without the internal
`rayDiv(rate, RAY)` normalization that `compoundInterest` performs. -/
def bareCompound (p r t : Nat) : Except MathErr Nat := do
  let f ← rayPow r t
  rayMul p f

/-- Claim C10: `compoundInterest` returns the principal unchanged when
any of principal, rate, or time is zero; otherwise it computes
`rayMul(principal, rayPow(rate, time))` (the internal
`rayDiv(rate, RAY)` is the identity whenever its overflow guard admits
the rate, which holds for every rate up to about `1.15e50`); and since
it compounds by the bare factor `rate^time` — not by `(1 + rate)^time`
— any result it returns for a rate strictly below the ray unit and a
time of at least one period is bounded by the principal. -/
theorem c10_compoundInterest (p r t : Nat) :
    ((p = 0 ∨ r = 0 ∨ t = 0) → compoundInterest p r t = .ok p) ∧
    (p ≠ 0 → r ≠ 0 → t ≠ 0 → r ≤ (uintMax - RAY / 2) / RAY →
      compoundInterest p r t = bareCompound p r t) ∧
    (r < RAY → 1 ≤ t → ∀ v, compoundInterest p r t = .ok v → v ≤ p) := by
  refine ⟨?_, ?_, ?_⟩
  · intro h
    unfold compoundInterest
    rw [if_pos h]
  · intro hp hr ht hb
    unfold compoundInterest bareCompound
    rw [if_neg (by simp [hp, hr, ht]), rayDiv_ray_self r hb, ok_bind]
  · intro hlt ht v hv
    unfold compoundInterest at hv
    by_cases h0 : p = 0 ∨ r = 0 ∨ t = 0
    · rw [if_pos h0] at hv
      injection hv with hv
      omega
    · rw [if_neg h0] at hv
      cases hrd : rayDiv r RAY with
      | error e => rw [hrd, error_bind] at hv; cases hv
      | ok rp =>
        rw [hrd, ok_bind] at hv
        rw [rayDiv_ray_ok hrd] at hv
        cases hpw : rayPow r t with
        | error e => rw [hpw, error_bind] at hv; cases hv
        | ok f =>
          rw [hpw, ok_bind] at hv
          exact rayMul_ok_le hv (rayPow_le (le_of_lt hlt) hpw)

/-- Claim C10 — witness: a rate of half a ray compounded over two
periods turns a principal of 1000 into 250 (`0.5^2 = 0.25`), matching
the bare expression and bounded by the principal; and a zero principal
passes through unchanged. -/
theorem c10_compoundInterest_witness :
    compoundInterest 1000 HALF_RAY 2 = bareCompound 1000 HALF_RAY 2 ∧
    (250 : Nat) ≤ 1000 ∧
    compoundInterest 0 HALF_RAY 2 = .ok 0 :=
  ⟨(c10_compoundInterest 1000 HALF_RAY 2).2.1 (by decide) (by decide) (by decide) (by decide),
   (c10_compoundInterest 1000 HALF_RAY 2).2.2 (by decide) (by decide) 250 (by rfl),
   (c10_compoundInterest 0 HALF_RAY 2).1 (Or.inl rfl)⟩

/-- Claim C4 — counterexample.  Exponentiation-by-squaring rounds in a
different order than sequential compounding: at base `1.5 ray + 2` and
exponent 4, `rayPow` computes `(x^2)^2` and the reference computes
`((x * x) * x) * x`, and the two differ by one unit in the last place,
so the claimed equality for every base and exponent is false. -/
theorem c4_rayPow_counterexample :
    rayPow 1500000000000000000000000002 4 = .ok 5062500000000000000000000027 ∧
    rayRef 1500000000000000000000000002 4 = .ok 5062500000000000000000000028 ∧
    rayPow 1500000000000000000000000002 4 ≠ rayRef 1500000000000000000000000002 4 := by
  refine ⟨by rfl, by rfl, by decide⟩

/-- Claim C4 — amended.  `rayPow` is a deterministic pure function with
`rayPow(x, 0) = RAY`, and for exponents up to 3 it agrees with the
reference obtained by ray-multiplying the ray unit by `x` exactly `n`
times whenever both computations succeed; from exponent 4 on the two
can differ by rounding units (see the counterexample). -/
theorem c4_rayPow_amended (x : Nat) :
    rayPow x 0 = .ok RAY ∧
    (∀ n, n ≤ 3 → ∀ a b, rayPow x n = .ok a → rayRef x n = .ok b → a = b) := by
  refine ⟨rfl, ?_⟩
  intro n hn a b ha hb
  interval_cases n
  · rw [show rayPow x 0 = .ok RAY from rfl] at ha
    rw [show rayRef x 0 = .ok RAY from rfl] at hb
    injection ha with ha
    injection hb with hb
    omega
  · rw [show rayPow x 1 = .ok x from rfl] at ha
    rw [show rayRef x 1 = rayMul RAY x from rfl] at hb
    injection ha with ha
    rw [← ha, rayMul_ray_ok hb]
  · rw [show rayPow x 2 = rayMul x x >>= fun w => rayMul RAY w >>= fun z => Except.ok z
        from rfl] at ha
    rw [show rayRef x 2 = rayMul RAY x >>= fun r1 => rayMul r1 x from rfl] at hb
    cases hxx : rayMul x x with
    | error e => rw [hxx, error_bind] at ha; cases ha
    | ok w =>
      rw [hxx, ok_bind] at ha
      cases hrw : rayMul RAY w with
      | error e => rw [hrw, error_bind] at ha; cases ha
      | ok z =>
        rw [hrw, ok_bind] at ha
        injection ha with ha
        cases hr1 : rayMul RAY x with
        | error e => rw [hr1, error_bind] at hb; cases hb
        | ok r1 =>
          rw [hr1, ok_bind] at hb
          rw [rayMul_ray_ok hr1, hxx] at hb
          injection hb with hb
          rw [← ha, ← hb, rayMul_ray_ok hrw]
  · rw [show rayPow x 3 = rayMul x x >>= fun w => rayMul x w >>= fun z => Except.ok z
        from rfl] at ha
    rw [show rayRef x 3 = (rayMul RAY x >>= fun r1 => rayMul r1 x) >>= fun r2 => rayMul r2 x
        from rfl] at hb
    cases hxx : rayMul x x with
    | error e => rw [hxx, error_bind] at ha; cases ha
    | ok w =>
      rw [hxx, ok_bind] at ha
      cases hxw : rayMul x w with
      | error e => rw [hxw, error_bind] at ha; cases ha
      | ok z =>
        rw [hxw, ok_bind] at ha
        injection ha with ha
        cases hr1 : rayMul RAY x with
        | error e => rw [hr1, error_bind] at hb; cases hb
        | ok r1 =>
          rw [hr1, ok_bind] at hb
          rw [rayMul_ray_ok hr1, hxx, ok_bind] at hb
          rw [rayMul_comm x w, hb] at hxw
          injection hxw with hxw
          rw [← ha, hxw]

/-- Claim C4 — witness: at a base of two rays and exponent 2 the two
computations agree (both give four rays). -/
theorem c4_rayPow_amended_witness :
    (2 : Nat) ≤ 3 ∧ (4 * 10 ^ 27 : Nat) = 4 * 10 ^ 27 :=
  ⟨by decide,
   (c4_rayPow_amended (2 * RAY)).2 2 (by decide) (4 * 10 ^ 27) (4 * 10 ^ 27) (by rfl) (by rfl)⟩

/-! ### The claim token (`contracts/tokens/aToken.sol`)

The embedding keeps the accounting state of the contract: the liquidity
index, the scaled ledger (`scaledTotalSupply`, `scaledBalanceOf`), the
inherited ERC20 ledger that `_mint`/`_burn` maintain, and the pause
flag consulted by `_beforeTokenTransfer`.  Addresses are `Nat` (0 is
the zero address).  Role checks (`onlyMinter`, `onlyBurner`,
`onlyLendingPool`) gate on the caller and are outside the state model:
the claims quantify over calls made by the authorized lending pool.
Vote checkpointing of the ERC20Votes extension only mirrors balances
already modelled; its `uint224` supply cap on mint is kept. -/

/-- `uint224` cap enforced by the ERC20Votes extension when minting. -/
def uint224Max : Nat := 2 ^ 224 - 1

/-- Reverting outcomes of `aToken.mint`/`burn`/`updateLiquidityIndex`:
the contract's own `require` messages plus the checked-arithmetic and
OpenZeppelin reverts that can fire inside them. -/
inductive TokenErr where
  | zeroAddress
  | zeroAmount
  | insufficientScaledBalance
  | erc20InsufficientBalance
  | balanceOverflow
  | supplyOverflow
  | supplyUnderflow
  | votesCapExceeded
  | tokenPaused
  | indexDecrease
  | math (e : MathErr)
deriving DecidableEq, Repr

/-- State of one `aToken` instance. -/
structure AState where
  paused : Bool
  liquidityIndex : Nat
  lastUpdateTimestamp : Nat
  scaledTotalSupply : Nat
  scaledBalanceOf : Nat → Nat
  lastUpdateTimestampOf : Nat → Nat
  erc20TotalSupply : Nat
  erc20BalanceOf : Nat → Nat

/-- The `if (index != liquidityIndex) { liquidityIndex = index;
lastUpdateTimestamp = block.timestamp; }` prologue shared by `mint` and
`burn`. -/
def syncIndex (now index : Nat) (s : AState) : AState :=
  if index = s.liquidityIndex then s
  else { s with liquidityIndex := index, lastUpdateTimestamp := now }

/-- `aToken.mint(user, amount, index)`: zero-address and zero-amount
requires, index sync, `scaledAmount = amount.rayDiv(index)`, scaled
ledger updates (checked additions), then the ERC20 `_mint` (pause check
in `_beforeTokenTransfer`, checked total-supply addition, ERC20Votes
`uint224` cap). -/
def mint (now user amount index : Nat) (s : AState) : Except TokenErr AState :=
  if user = 0 then .error .zeroAddress
  else if amount = 0 then .error .zeroAmount
  else
    let s1 := syncIndex now index s
    (rayDiv amount index).mapError TokenErr.math >>= fun scaledAmount =>
    if uintMax < s1.scaledBalanceOf user + scaledAmount then .error .balanceOverflow
    else if uintMax < s1.scaledTotalSupply + scaledAmount then .error .supplyOverflow
    else if s1.paused then .error .tokenPaused
    else if uintMax < s1.erc20TotalSupply + amount then .error .supplyOverflow
    else if uint224Max < s1.erc20TotalSupply + amount then .error .votesCapExceeded
    else .ok { s1 with
      scaledBalanceOf := Function.update s1.scaledBalanceOf user
        (s1.scaledBalanceOf user + scaledAmount)
      lastUpdateTimestampOf := Function.update s1.lastUpdateTimestampOf user now
      scaledTotalSupply := s1.scaledTotalSupply + scaledAmount
      erc20TotalSupply := s1.erc20TotalSupply + amount
      erc20BalanceOf := Function.update s1.erc20BalanceOf user
        (s1.erc20BalanceOf user + amount) }

/-- `aToken.burn(user, amount, index)`: zero-address and zero-amount
requires, index sync, `scaledAmount = amount.rayDiv(index)`, the
`require(scaledBalanceOf[user] >= scaledAmount)`, the checked
subtraction from `scaledTotalSupply`, then the ERC20 `_burn` (pause
check, balance require; the ERC20 total-supply subtraction is inside an
`unchecked` block and cannot underflow when balances are conserved). -/
def burn (now user amount index : Nat) (s : AState) : Except TokenErr AState :=
  if user = 0 then .error .zeroAddress
  else if amount = 0 then .error .zeroAmount
  else
    let s1 := syncIndex now index s
    (rayDiv amount index).mapError TokenErr.math >>= fun scaledAmount =>
    if s1.scaledBalanceOf user < scaledAmount then .error .insufficientScaledBalance
    else if s1.scaledTotalSupply < scaledAmount then .error .supplyUnderflow
    else if s1.paused then .error .tokenPaused
    else if s1.erc20BalanceOf user < amount then .error .erc20InsufficientBalance
    else .ok { s1 with
      scaledBalanceOf := Function.update s1.scaledBalanceOf user
        (s1.scaledBalanceOf user - scaledAmount)
      lastUpdateTimestampOf := Function.update s1.lastUpdateTimestampOf user now
      scaledTotalSupply := s1.scaledTotalSupply - scaledAmount
      erc20TotalSupply := s1.erc20TotalSupply - amount
      erc20BalanceOf := Function.update s1.erc20BalanceOf user
        (s1.erc20BalanceOf user - amount) }

/-- `aToken.updateLiquidityIndex(newIndex)`:
`require(newIndex >= liquidityIndex)` then store it. -/
def updateLiquidityIndex (now newIndex : Nat) (s : AState) : Except TokenErr AState :=
  if newIndex < s.liquidityIndex then .error .indexDecrease
  else .ok { s with liquidityIndex := newIndex, lastUpdateTimestamp := now }

/-- `aToken.balanceOfUnderlying(user) =
scaledBalanceOf[user].rayMul(liquidityIndex)`. -/
def balanceOfUnderlying (s : AState) (user : Nat) : Except MathErr Nat :=
  rayMul (s.scaledBalanceOf user) s.liquidityIndex

/-- A mint immediately followed by a burn of the same amount at the same
index (the round-trip of the spec). -/
def mintThenBurn (now user amount index : Nat) (s : AState) : Except TokenErr AState := do
  let s1 ← mint now user amount index s
  burn now user amount index s1

/-- `balanceOfUnderlying` with its revert lifted into `TokenErr`, so it
composes with `mint`/`burn`. -/
def underlyingOf (s : AState) (user : Nat) : Except TokenErr Nat :=
  (balanceOfUnderlying s user).mapError TokenErr.math

theorem mapError_ok {ε ε' α : Type} (f : ε → ε') (a : α) :
    (Except.ok a : Except ε α).mapError f = .ok a := rfl

theorem mapError_error {ε ε' α : Type} (f : ε → ε') (e : ε) :
    (Except.error e : Except ε α).mapError f = .error (f e) := rfl

theorem syncIndex_liquidityIndex (now index : Nat) (s : AState) :
    (syncIndex now index s).liquidityIndex = index := by
  unfold syncIndex
  split
  · next h => exact h.symm
  · rfl

theorem syncIndex_paused (now index : Nat) (s : AState) :
    (syncIndex now index s).paused = s.paused := by
  unfold syncIndex
  split <;> rfl

theorem syncIndex_scaledTotalSupply (now index : Nat) (s : AState) :
    (syncIndex now index s).scaledTotalSupply = s.scaledTotalSupply := by
  unfold syncIndex
  split <;> rfl

theorem syncIndex_scaledBalanceOf (now index : Nat) (s : AState) :
    (syncIndex now index s).scaledBalanceOf = s.scaledBalanceOf := by
  unfold syncIndex
  split <;> rfl

theorem syncIndex_erc20TotalSupply (now index : Nat) (s : AState) :
    (syncIndex now index s).erc20TotalSupply = s.erc20TotalSupply := by
  unfold syncIndex
  split <;> rfl

theorem syncIndex_erc20BalanceOf (now index : Nat) (s : AState) :
    (syncIndex now index s).erc20BalanceOf = s.erc20BalanceOf := by
  unfold syncIndex
  split <;> rfl

/-- Inversion of a successful `mint`: the requires passed and the new
state is the old one with the index repointed to the argument and both
scaled and ERC20 ledgers credited. -/
theorem mint_ok_elim {now user amount index : Nat} {s s' : AState}
    (h : mint now user amount index s = .ok s') :
    user ≠ 0 ∧ amount ≠ 0 ∧ s.paused = false ∧
    ∃ sc, rayDiv amount index = .ok sc ∧
      s'.paused = s.paused ∧
      s'.liquidityIndex = index ∧
      s'.scaledTotalSupply = s.scaledTotalSupply + sc ∧
      s'.scaledBalanceOf =
        Function.update s.scaledBalanceOf user (s.scaledBalanceOf user + sc) ∧
      s'.erc20TotalSupply = s.erc20TotalSupply + amount ∧
      s'.erc20BalanceOf =
        Function.update s.erc20BalanceOf user (s.erc20BalanceOf user + amount) := by
  unfold mint at h
  by_cases hu : user = 0
  · rw [if_pos hu] at h; exact absurd h (by simp)
  · rw [if_neg hu] at h
    by_cases ha : amount = 0
    · rw [if_pos ha] at h; exact absurd h (by simp)
    · rw [if_neg ha] at h
      cases hsc : rayDiv amount index with
      | error e =>
        rw [hsc, mapError_error, error_bind] at h
        exact absurd h (by simp)
      | ok sc =>
        rw [hsc, mapError_ok, ok_bind] at h
        split_ifs at h with h1 h2 h3 h4 h5
        injection h with h
        subst h
        refine ⟨hu, ha, ?_, sc, rfl, ?_, ?_, ?_, ?_, ?_, ?_⟩
        · rw [syncIndex_paused] at h3
          simpa using h3
        · simp [syncIndex_paused]
        · simp [syncIndex_liquidityIndex]
        · simp [syncIndex_scaledTotalSupply]
        · simp [syncIndex_scaledBalanceOf]
        · simp [syncIndex_erc20TotalSupply]
        · simp [syncIndex_erc20BalanceOf]

/-- Inversion of a successful `burn`, symmetric to `mint_ok_elim`, with
the guard facts that the scaled amount fits in both the user balance
and the total. -/
theorem burn_ok_elim {now user amount index : Nat} {s s' : AState}
    (h : burn now user amount index s = .ok s') :
    user ≠ 0 ∧ amount ≠ 0 ∧ s.paused = false ∧
    ∃ sc, rayDiv amount index = .ok sc ∧
      sc ≤ s.scaledBalanceOf user ∧
      sc ≤ s.scaledTotalSupply ∧
      s'.paused = s.paused ∧
      s'.liquidityIndex = index ∧
      s'.scaledTotalSupply = s.scaledTotalSupply - sc ∧
      s'.scaledBalanceOf =
        Function.update s.scaledBalanceOf user (s.scaledBalanceOf user - sc) ∧
      s'.erc20TotalSupply = s.erc20TotalSupply - amount ∧
      s'.erc20BalanceOf =
        Function.update s.erc20BalanceOf user (s.erc20BalanceOf user - amount) := by
  unfold burn at h
  by_cases hu : user = 0
  · rw [if_pos hu] at h; exact absurd h (by simp)
  · rw [if_neg hu] at h
    by_cases ha : amount = 0
    · rw [if_pos ha] at h; exact absurd h (by simp)
    · rw [if_neg ha] at h
      cases hsc : rayDiv amount index with
      | error e =>
        rw [hsc, mapError_error, error_bind] at h
        exact absurd h (by simp)
      | ok sc =>
        rw [hsc, mapError_ok, ok_bind] at h
        split_ifs at h with h1 h2 h3 h4
        injection h with h
        subst h
        rw [syncIndex_scaledBalanceOf] at h1
        rw [syncIndex_scaledTotalSupply] at h2
        refine ⟨hu, ha, ?_, sc, rfl, by omega, by omega, ?_, ?_, ?_, ?_, ?_, ?_⟩
        · rw [syncIndex_paused] at h3
          simpa using h3
        · simp [syncIndex_paused]
        · simp [syncIndex_liquidityIndex]
        · simp [syncIndex_scaledTotalSupply]
        · simp [syncIndex_scaledBalanceOf]
        · simp [syncIndex_erc20TotalSupply]
        · simp [syncIndex_erc20BalanceOf]

/-- Constructive success of `burn` when every require passes and the
supplied index already equals the stored one. -/
theorem burn_ok_intro (now user amount index : Nat) (s1 : AState) (sc : Nat)
    (hu : user ≠ 0) (ha : amount ≠ 0) (hidx : s1.liquidityIndex = index)
    (hsc : rayDiv amount index = .ok sc)
    (hbal : sc ≤ s1.scaledBalanceOf user) (htot : sc ≤ s1.scaledTotalSupply)
    (hp : s1.paused = false) (herc : amount ≤ s1.erc20BalanceOf user) :
    burn now user amount index s1 = .ok { s1 with
      scaledBalanceOf := Function.update s1.scaledBalanceOf user
        (s1.scaledBalanceOf user - sc)
      lastUpdateTimestampOf := Function.update s1.lastUpdateTimestampOf user now
      scaledTotalSupply := s1.scaledTotalSupply - sc
      erc20TotalSupply := s1.erc20TotalSupply - amount
      erc20BalanceOf := Function.update s1.erc20BalanceOf user
        (s1.erc20BalanceOf user - amount) } := by
  have hsync : syncIndex now index s1 = s1 := by
    unfold syncIndex
    rw [if_pos hidx.symm]
  simp only [burn]
  rw [if_neg hu, if_neg ha, hsync, hsc, mapError_ok, ok_bind]
  rw [if_neg (by omega), if_neg (by omega), if_neg (by simp [hp]), if_neg (by omega)]

/-- Evaluate an `Except` with a default for the error case; used to name
the successor state in concrete witnesses. -/
def okD {ε α : Type} (e : Except ε α) (d : α) : α :=
  match e with
  | .ok a => a
  | .error _ => d

/-- A small healthy token state used by the witnesses: index one ray,
user 1 holding a scaled balance of 1000, ledgers consistent. -/
def aW0 : AState where
  paused := false
  liquidityIndex := RAY
  lastUpdateTimestamp := 0
  scaledTotalSupply := 1000
  scaledBalanceOf := fun u => if u = 1 then 1000 else 0
  lastUpdateTimestampOf := fun _ => 0
  erc20TotalSupply := 1000
  erc20BalanceOf := fun u => if u = 1 then 1000 else 0

/-- A token state whose stored liquidity index (two rays) is larger than
the index the pool will pass in; used by the counterexamples. -/
def aC2 : AState where
  paused := false
  liquidityIndex := 2 * RAY
  lastUpdateTimestamp := 0
  scaledTotalSupply := 1000
  scaledBalanceOf := fun u => if u = 1 then 1000 else 0
  lastUpdateTimestampOf := fun _ => 0
  erc20TotalSupply := 2000
  erc20BalanceOf := fun u => if u = 1 then 2000 else 0

/-- Claim C2 — counterexample.  `mint` accepts an index argument smaller
than the stored `liquidityIndex` and overwrites the stored index with
it: from a state at two rays, `mint(user 1, amount 1000, index RAY)`
succeeds and leaves the index at one ray, strictly below its previous
value, so the index is not non-decreasing over all accepted `mint`
arguments. -/
theorem c2_index_counterexample :
    Except.map (fun s' => s'.liquidityIndex) (mint 0 1 1000 RAY aC2) = .ok RAY ∧
    RAY < aC2.liquidityIndex := by
  refine ⟨rfl, by decide⟩

/-- Claim C2 — amended.  `updateLiquidityIndex` never decreases the
index (it rejects a smaller argument outright), and `mint`/`burn`
preserve index monotonicity exactly when the pool supplies an index at
least the stored one — they repoint the stored index to their argument
unconditionally. -/
theorem c2_index_amended :
    (∀ now newIndex (s s' : AState), updateLiquidityIndex now newIndex s = .ok s' →
      s.liquidityIndex ≤ s'.liquidityIndex) ∧
    (∀ now user amount index (s s' : AState), s.liquidityIndex ≤ index →
      mint now user amount index s = .ok s' → s.liquidityIndex ≤ s'.liquidityIndex) ∧
    (∀ now user amount index (s s' : AState), s.liquidityIndex ≤ index →
      burn now user amount index s = .ok s' → s.liquidityIndex ≤ s'.liquidityIndex) := by
  refine ⟨?_, ?_, ?_⟩
  · intro now newIndex s s' h
    unfold updateLiquidityIndex at h
    split_ifs at h with h1
    injection h with h
    subst h
    show s.liquidityIndex ≤ newIndex
    omega
  · intro now user amount index s s' hle h
    rcases mint_ok_elim h with ⟨-, -, -, sc, -, -, hliq, -, -, -, -⟩
    rw [hliq]
    exact hle
  · intro now user amount index s s' hle h
    rcases burn_ok_elim h with ⟨-, -, -, sc, -, -, -, -, hliq, -, -, -, -⟩
    rw [hliq]
    exact hle

/-- Claim C2 — witness: the three clauses at concrete successful calls
on `aW0`. -/
theorem c2_index_amended_witness :
    aW0.liquidityIndex ≤ (okD (updateLiquidityIndex 5 (2 * RAY) aW0) aW0).liquidityIndex ∧
    aW0.liquidityIndex ≤ (okD (mint 0 1 100 RAY aW0) aW0).liquidityIndex ∧
    aW0.liquidityIndex ≤ (okD (burn 0 1 100 RAY aW0) aW0).liquidityIndex :=
  ⟨c2_index_amended.1 5 (2 * RAY) aW0 _ rfl,
   c2_index_amended.2.1 0 1 100 RAY aW0 _ (by decide) rfl,
   c2_index_amended.2.2 0 1 100 RAY aW0 _ (by decide) rfl⟩

/-- Claim C3: both `mint` and `burn` preserve the conservation invariant
"the sum of scaled balances over any user set containing the touched
user equals the scaled total supply". -/
theorem c3_scaled_conservation (S : Finset Nat) (user : Nat) (hu : user ∈ S)
    (now amount index : Nat) (s s' : AState)
    (hinv : (∑ v ∈ S, s.scaledBalanceOf v) = s.scaledTotalSupply) :
    (mint now user amount index s = .ok s' →
      (∑ v ∈ S, s'.scaledBalanceOf v) = s'.scaledTotalSupply) ∧
    (burn now user amount index s = .ok s' →
      (∑ v ∈ S, s'.scaledBalanceOf v) = s'.scaledTotalSupply) := by
  constructor
  · intro h
    rcases mint_ok_elim h with ⟨-, -, -, sc, -, -, -, htot, hbal, -, -⟩
    rw [hbal, htot, ← hinv]
    rw [Finset.sum_update_of_mem hu, Finset.sdiff_singleton_eq_erase]
    have he := Finset.sum_erase_add S s.scaledBalanceOf hu
    omega
  · intro h
    rcases burn_ok_elim h with ⟨-, -, -, sc, -, hle1, hle2, -, -, htot, hbal, -, -⟩
    rw [hbal, htot, ← hinv]
    rw [Finset.sum_update_of_mem hu, Finset.sdiff_singleton_eq_erase]
    have he := Finset.sum_erase_add S s.scaledBalanceOf hu
    omega

/-- Claim C3 — witness: conservation after a concrete mint and a
concrete burn on `aW0` over the user set `{1}`. -/
theorem c3_scaled_conservation_witness :
    (∑ v ∈ ({1} : Finset Nat), (okD (mint 0 1 100 RAY aW0) aW0).scaledBalanceOf v) =
      (okD (mint 0 1 100 RAY aW0) aW0).scaledTotalSupply ∧
    (∑ v ∈ ({1} : Finset Nat), (okD (burn 0 1 100 RAY aW0) aW0).scaledBalanceOf v) =
      (okD (burn 0 1 100 RAY aW0) aW0).scaledTotalSupply :=
  ⟨(c3_scaled_conservation {1} 1 (Finset.mem_singleton_self 1) 0 100 RAY aW0 _
      (by rw [Finset.sum_singleton]; rfl)).1 rfl,
   (c3_scaled_conservation {1} 1 (Finset.mem_singleton_self 1) 0 100 RAY aW0 _
      (by rw [Finset.sum_singleton]; rfl)).2 rfl⟩

/-- Claim C7 — counterexample.  The claim lets the pair of calls use any
fixed index `i`.  When `i` differs from the token's stored index, the
mint repoints the index, so the round trip changes the user's
underlying balance by the index ratio: from `aC2` (index two rays,
underlying balance 2000), `mint(1, 100, RAY)` then `burn(1, 100, RAY)`
leaves an underlying balance of 1000 — a change of 1000 units, far more
than one unit of fixed-point rounding. -/
theorem c7_roundtrip_counterexample :
    underlyingOf aC2 1 = .ok 2000 ∧
    (mintThenBurn 0 1 100 RAY aC2 >>= fun s2 => underlyingOf s2 1) = .ok 1000 ∧
    ¬ (2000 - 1000 ≤ (1 : Nat)) := by
  refine ⟨rfl, rfl, by decide⟩

/-- Claim C7 — amended.  Whenever `mint(user, X, i)` succeeds, the
immediately following `burn(user, X, i)` succeeds as well and restores
the user's scaled balance exactly; if moreover `i` equals the token's
stored liquidity index at the time of the mint, the user's underlying
balance after the round trip equals its value before the mint exactly
(zero rounding error, hence within the claimed one unit). -/
theorem c7_roundtrip_amended (now user amount index : Nat) (s : AState)
    (h : (mint now user amount index s).isOk = true) :
    (mintThenBurn now user amount index s).isOk = true ∧
    Except.map (fun s2 => s2.scaledBalanceOf user) (mintThenBurn now user amount index s) =
      .ok (s.scaledBalanceOf user) ∧
    (index = s.liquidityIndex →
      (mintThenBurn now user amount index s >>= fun s2 => underlyingOf s2 user) =
        underlyingOf s user) := by
  cases hm : mint now user amount index s with
  | error e =>
    rw [hm] at h
    simp [Except.isOk, Except.toBool] at h
  | ok s1 =>
    rcases mint_ok_elim hm with ⟨hu, ha, hp, sc, hsc, hp1, hliq1, htot1, hbal1, het1, heb1⟩
    have hble : sc ≤ s1.scaledBalanceOf user := by
      rw [hbal1, Function.update_same]
      omega
    have htle : sc ≤ s1.scaledTotalSupply := by
      rw [htot1]
      omega
    have hple : s1.paused = false := by rw [hp1, hp]
    have hele : amount ≤ s1.erc20BalanceOf user := by
      rw [heb1, Function.update_same]
      omega
    have hb2 := burn_ok_intro now user amount index s1 sc hu ha hliq1 hsc hble htle hple hele
    have hmtb : mintThenBurn now user amount index s = burn now user amount index s1 := by
      unfold mintThenBurn
      rw [hm, ok_bind]
    have hbalr : Function.update s1.scaledBalanceOf user (s1.scaledBalanceOf user - sc) user
        = s.scaledBalanceOf user := by
      rw [Function.update_same, hbal1, Function.update_same]
      omega
    refine ⟨?_, ?_, ?_⟩
    · rw [hmtb, hb2]
      rfl
    · rw [hmtb, hb2]
      show Except.ok (Function.update s1.scaledBalanceOf user
        (s1.scaledBalanceOf user - sc) user) = Except.ok (s.scaledBalanceOf user)
      rw [hbalr]
    · intro hidx
      rw [hmtb, hb2, ok_bind]
      show (rayMul (Function.update s1.scaledBalanceOf user
          (s1.scaledBalanceOf user - sc) user) s1.liquidityIndex).mapError TokenErr.math =
        (rayMul (s.scaledBalanceOf user) s.liquidityIndex).mapError TokenErr.math
      rw [hbalr, hliq1, hidx]

/-- Claim C7 — witness: the amended round trip on `aW0` with the stored
index. -/
theorem c7_roundtrip_amended_witness :
    (mintThenBurn 0 1 100 RAY aW0).isOk = true ∧
    Except.map (fun s2 => s2.scaledBalanceOf 1) (mintThenBurn 0 1 100 RAY aW0) =
      .ok (aW0.scaledBalanceOf 1) ∧
    (mintThenBurn 0 1 100 RAY aW0 >>= fun s2 => underlyingOf s2 1) = underlyingOf aW0 1 :=
  have hth := c7_roundtrip_amended 0 1 100 RAY aW0 rfl
  ⟨hth.1, hth.2.1, hth.2.2 rfl⟩

/-! ### The lending pool entry points (`LendingPool` contract)

The contract's internal helpers (`_updateReserveState`, `_mintATokens`,
`_burnATokens`, `_validate*`, `_execute*`, `_updateConfidential*`) are
empty stubs in the source, so each public operation is its `require`
prefix followed by the external asset move; the embedding keeps exactly
that.  External token transfers and ETH sends happen only after every
`require`; their success is a single environment flag `extOk`.  The
`nonReentrant` modifier concerns re-entry during an external call and
is outside this single-call model. -/

/-- Modelled from the spec: `DataTypes.ReserveData`
(`libraries/DataTypes.sol`) is not part of the source tree; of its
fields the pool's entry points consult only `id`, which per spec §3 is
a small positive integer with 0 reserved to mean "uninitialized". -/
structure ReserveData where
  id : Nat

/-- Lending pool state as far as the entry-point validation consults
it: the per-asset reserve mapping (a Solidity mapping defaults to
`id = 0`), the pause flag, and the external-transfer environment
flag. -/
structure PState where
  reserves : Nat → ReserveData
  paused : Bool
  extOk : Bool

/-- Reverting outcomes of the pool entry points. -/
inductive PoolErr where
  | protocolPaused
  | invalidAmount
  | zeroAddress
  | reserveNotActive
  | invalidRateMode
  | msgValueMismatch
  | externalCallFailed
  | sameAsset
  | lengthMismatch
  | zeroReceiver
deriving DecidableEq, Repr

/-- `LendingPool.deposit(asset, amount, onBehalfOf, referralCode)`:
`whenNotPaused`, amount and onBehalfOf requires, reserve-active
require, stubbed `_updateReserveState`, then the asset move (ETH:
`msg.value == amount`; ERC20: `safeTransferFrom`), stubbed
`_mintATokens` and confidential update. -/
def deposit (msgValue asset amount onBehalfOf referralCode : Nat) (s : PState) :
    Except PoolErr PState :=
  if s.paused then .error .protocolPaused
  else if amount = 0 then .error .invalidAmount
  else if onBehalfOf = 0 then .error .zeroAddress
  else if (s.reserves asset).id = 0 then .error .reserveNotActive
  else if asset = 0 then
    (if msgValue = amount then .ok s else .error .msgValueMismatch)
  else if s.extOk then .ok s else .error .externalCallFailed

/-- `LendingPool.withdraw(asset, amount, to)`: same require prefix, then
the stubbed burn (which returns `amount`) and the asset move out. -/
def withdraw (asset amount dst : Nat) (s : PState) : Except PoolErr PState :=
  if s.paused then .error .protocolPaused
  else if amount = 0 then .error .invalidAmount
  else if dst = 0 then .error .zeroAddress
  else if (s.reserves asset).id = 0 then .error .reserveNotActive
  else if s.extOk then .ok s else .error .externalCallFailed

/-- `LendingPool.borrow(asset, amount, interestRateMode, referralCode,
onBehalfOf)`: requires on amount, onBehalfOf, rate mode (1 or 2), then
the reserve-active require, stubbed validation and debt mint, and the
asset move out. -/
def borrow (asset amount interestRateMode referralCode onBehalfOf : Nat) (s : PState) :
    Except PoolErr PState :=
  if s.paused then .error .protocolPaused
  else if amount = 0 then .error .invalidAmount
  else if onBehalfOf = 0 then .error .zeroAddress
  else if ¬ (interestRateMode = 1 ∨ interestRateMode = 2) then .error .invalidRateMode
  else if (s.reserves asset).id = 0 then .error .reserveNotActive
  else if s.extOk then .ok s else .error .externalCallFailed

/-- `LendingPool.repay(asset, amount, rateMode, onBehalfOf)`: requires
on amount, onBehalfOf, rate mode, reserve-active, then the asset move
in (ETH: `msg.value == amount`) and the stubbed debt burn. -/
def repay (msgValue asset amount rateMode onBehalfOf : Nat) (s : PState) :
    Except PoolErr PState :=
  if s.paused then .error .protocolPaused
  else if amount = 0 then .error .invalidAmount
  else if onBehalfOf = 0 then .error .zeroAddress
  else if ¬ (rateMode = 1 ∨ rateMode = 2) then .error .invalidRateMode
  else if (s.reserves asset).id = 0 then .error .reserveNotActive
  else if asset = 0 then
    (if msgValue = amount then .ok s else .error .msgValueMismatch)
  else if s.extOk then .ok s else .error .externalCallFailed

/-- `LendingPool.liquidationCall(collateralAsset, debtAsset, user,
debtToCover, receiveAToken)`: distinct-asset, user, amount requires,
then reserve-active requires on both reserves, stubbed validation and
execution. -/
def liquidationCall (collateralAsset debtAsset user debtToCover : Nat)
    (receiveAToken : Bool) (s : PState) : Except PoolErr PState :=
  if s.paused then .error .protocolPaused
  else if collateralAsset = debtAsset then .error .sameAsset
  else if user = 0 then .error .zeroAddress
  else if debtToCover = 0 then .error .invalidAmount
  else if (s.reserves collateralAsset).id = 0 then .error .reserveNotActive
  else if (s.reserves debtAsset).id = 0 then .error .reserveNotActive
  else .ok s

/-- `LendingPool.flashLoan(receiverAddress, assets, amounts, modes,
onBehalfOf, params, referralCode)`: `whenNotPaused`, receiver and
length requires, then the stubbed `_executeFlashLoan`.  There is no
reserve-activity check anywhere on this path. -/
def flashLoan (receiverAddress : Nat) (assets amounts modes : List Nat)
    (onBehalfOf : Nat) (s : PState) : Except PoolErr PState :=
  if s.paused then .error .protocolPaused
  else if receiverAddress = 0 then .error .zeroReceiver
  else if assets.length ≠ amounts.length then .error .lengthMismatch
  else if assets.length ≠ modes.length then .error .lengthMismatch
  else .ok s

/-- Claim C8: on an unpaused pool, `deposit`, `withdraw`, `borrow`,
`repay` and `liquidationCall` all fail with the reserve-not-active
error when the target reserve has id 0 and their earlier argument
requires pass (an error leaves the state unchanged by revert
semantics); `flashLoan`, however, performs no reserve-activity check at
all and succeeds (state unchanged) on arbitrary asset lists, including
assets whose reserve was never initialized. -/
theorem c8_pool_behavior (s : PState) (hp : s.paused = false) :
    (∀ msgValue asset amount onBehalfOf referralCode, amount ≠ 0 → onBehalfOf ≠ 0 →
      (s.reserves asset).id = 0 →
      deposit msgValue asset amount onBehalfOf referralCode s = .error .reserveNotActive) ∧
    (∀ asset amount dst, amount ≠ 0 → dst ≠ 0 → (s.reserves asset).id = 0 →
      withdraw asset amount dst s = .error .reserveNotActive) ∧
    (∀ asset amount mode referralCode onBehalfOf, amount ≠ 0 → onBehalfOf ≠ 0 →
      (mode = 1 ∨ mode = 2) → (s.reserves asset).id = 0 →
      borrow asset amount mode referralCode onBehalfOf s = .error .reserveNotActive) ∧
    (∀ msgValue asset amount rateMode onBehalfOf, amount ≠ 0 → onBehalfOf ≠ 0 →
      (rateMode = 1 ∨ rateMode = 2) → (s.reserves asset).id = 0 →
      repay msgValue asset amount rateMode onBehalfOf s = .error .reserveNotActive) ∧
    (∀ collateralAsset debtAsset user debtToCover receiveAToken,
      collateralAsset ≠ debtAsset → user ≠ 0 → debtToCover ≠ 0 →
      (s.reserves collateralAsset).id = 0 →
      liquidationCall collateralAsset debtAsset user debtToCover receiveAToken s =
        .error .reserveNotActive) ∧
    (∀ receiverAddress assets amounts modes onBehalfOf, receiverAddress ≠ 0 →
      assets.length = amounts.length → assets.length = modes.length →
      flashLoan receiverAddress assets amounts modes onBehalfOf s = .ok s) := by
  refine ⟨?_, ?_, ?_, ?_, ?_, ?_⟩
  · intro msgValue asset amount onBehalfOf referralCode ha ho hid
    unfold deposit
    rw [if_neg (by simp [hp]), if_neg ha, if_neg ho, if_pos hid]
  · intro asset amount dst ha ht hid
    unfold withdraw
    rw [if_neg (by simp [hp]), if_neg ha, if_neg ht, if_pos hid]
  · intro asset amount mode referralCode onBehalfOf ha ho hm hid
    unfold borrow
    rw [if_neg (by simp [hp]), if_neg ha, if_neg ho, if_neg (not_not_intro hm), if_pos hid]
  · intro msgValue asset amount rateMode onBehalfOf ha ho hm hid
    unfold repay
    rw [if_neg (by simp [hp]), if_neg ha, if_neg ho, if_neg (not_not_intro hm), if_pos hid]
  · intro collateralAsset debtAsset user debtToCover receiveAToken hd hu hc hid
    unfold liquidationCall
    rw [if_neg (by simp [hp]), if_neg hd, if_neg hu, if_neg hc, if_pos hid]
  · intro receiverAddress assets amounts modes onBehalfOf hr hl1 hl2
    unfold flashLoan
    rw [if_neg (by simp [hp]), if_neg hr, if_neg (not_not_intro hl1),
      if_neg (not_not_intro hl2)]

/-- An unpaused pool in which no reserve was ever initialized. -/
def pW : PState where
  reserves := fun _ => { id := 0 }
  paused := false
  extOk := true

/-- Claim C8 — witness: the six clauses instantiated on `pW`; in
particular `flashLoan` on the uninitialized asset 5 succeeds. -/
theorem c8_pool_behavior_witness :
    deposit 100 5 100 1 0 pW = .error .reserveNotActive ∧
    withdraw 5 100 1 pW = .error .reserveNotActive ∧
    borrow 5 100 2 0 1 pW = .error .reserveNotActive ∧
    repay 100 5 100 2 1 pW = .error .reserveNotActive ∧
    liquidationCall 5 6 1 100 false pW = .error .reserveNotActive ∧
    flashLoan 1 [5] [100] [0] 1 pW = .ok pW :=
  have hth := c8_pool_behavior pW rfl
  ⟨hth.1 100 5 100 1 0 (by decide) (by decide) rfl,
   hth.2.1 5 100 1 (by decide) (by decide) rfl,
   hth.2.2.1 5 100 2 0 1 (by decide) (by decide) (Or.inr rfl) rfl,
   hth.2.2.2.1 100 5 100 2 1 (by decide) (by decide) (Or.inr rfl) rfl,
   hth.2.2.2.2.1 5 6 1 100 false (by decide) (by decide) (by decide) rfl,
   hth.2.2.2.2.2 1 [5] [100] [0] 1 (by decide) rfl rfl⟩

/-! ### The price oracle (`ChainlinkPriceOracle.sol`)

The Chainlink aggregator is external; its `latestRoundData` call either
reverts or returns a round tuple, modelled per asset by `feed`.  The
contract's `_getChainlinkPrice` wraps that call in the validity
requires; `getPrice` wraps `_getChainlinkPrice` in `try/catch` and
falls back to `_lastPrices[asset]` whenever it is nonzero. -/

/-- Outcome of the external `latestRoundData` call for one asset. -/
inductive FeedResult where
  | reverted
  | round (roundId : Nat) (answer : Int) (startedAt updatedAt answeredInRound : Nat)
deriving DecidableEq, Repr

/-- Oracle state: feed registry, pause flag, cached prices with their
update timestamps, per-asset staleness thresholds with the default, and
the external feed outcomes. -/
structure OState where
  priceFeeds : Nat → Nat
  paused : Bool
  lastPrices : Nat → Nat
  lastUpdateTimestamps : Nat → Nat
  stalenessThresholds : Nat → Nat
  defaultStalenessThreshold : Nat
  feed : Nat → FeedResult

/-- Reverting outcomes of the oracle views. -/
inductive OracleErr where
  | feedNotFound
  | oraclePaused
  | invalidPrice
  | invalidTimestamp
  | stalePrice
  | noFallbackPrice
  | externalRevert
deriving DecidableEq, Repr

/-- `ChainlinkPriceOracle._getChainlinkPrice(asset)`: the external call
followed by `require(answer > 0)`, `require(updatedAt > 0)`,
`require(answeredInRound >= roundId)`. -/
def getChainlinkPrice (s : OState) (asset : Nat) : Except OracleErr Nat :=
  match s.feed asset with
  | .reverted => .error .externalRevert
  | .round roundId answer _ updatedAt answeredInRound =>
    if answer ≤ 0 then .error .invalidPrice
    else if updatedAt = 0 then .error .invalidTimestamp
    else if answeredInRound < roundId then .error .stalePrice
    else .ok answer.toNat

/-- `ChainlinkPriceOracle.getPrice(asset)`: feed-configured and
not-paused requires, `try _getChainlinkPrice`, and on any failure the
fallback `require(_lastPrices[asset] > 0); return _lastPrices[asset]`. -/
def getPrice (s : OState) (asset : Nat) : Except OracleErr Nat :=
  if s.priceFeeds asset = 0 then .error .feedNotFound
  else if s.paused then .error .oraclePaused
  else
    match getChainlinkPrice s asset with
    | .ok price => .ok price
    | .error _ =>
      if 0 < s.lastPrices asset then .ok (s.lastPrices asset)
      else .error .noFallbackPrice

/-- `ChainlinkPriceOracle.isPriceStale(asset)`:
`block.timestamp > lastUpdate + stalenessThreshold`, with the per-asset
threshold defaulting when unset. -/
def isPriceStale (now : Nat) (s : OState) (asset : Nat) : Bool :=
  let stalenessThreshold := if 0 < s.stalenessThresholds asset
    then s.stalenessThresholds asset else s.defaultStalenessThreshold
  decide (s.lastUpdateTimestamps asset + stalenessThreshold < now)

/-- An oracle state whose cached price for every asset is ancient
(updated at time 0, default staleness window 3600) and whose primary
feed call reverts. -/
def oStale : OState where
  priceFeeds := fun _ => 7
  paused := false
  lastPrices := fun _ => 100
  lastUpdateTimestamps := fun _ => 0
  stalenessThresholds := fun _ => 0
  defaultStalenessThreshold := 3600
  feed := fun _ => .reverted

/-- Claim C9 — counterexample.  At time 1000000 the cached price of
asset 5 is far beyond its staleness window (`isPriceStale` is true),
the primary lookup fails, and `getPrice` nevertheless returns the
cached price 100: a stale cached price is returned. -/
theorem c9_oracle_counterexample :
    isPriceStale 1000000 oStale 5 = true ∧ getPrice oStale 5 = .ok 100 := by
  refine ⟨rfl, rfl⟩

/-- Claim C9 — amended.  When the primary Chainlink lookup fails on a
configured, unpaused oracle, `getPrice` returns the cached last-known
price whenever it is nonzero — without consulting the staleness
window — and fails with the no-fallback-price error only when no
cached price exists.  Staleness is reported only by the separate
`isPriceStale` view. -/
theorem c9_oracle_amended (s : OState) (asset : Nat)
    (hfeed : s.priceFeeds asset ≠ 0) (hp : s.paused = false)
    (e : OracleErr) (hfail : getChainlinkPrice s asset = .error e) :
    getPrice s asset = (if 0 < s.lastPrices asset then .ok (s.lastPrices asset)
      else .error .noFallbackPrice) := by
  unfold getPrice
  rw [if_neg hfeed, if_neg (by simp [hp]), hfail]

/-- Claim C9 — witness: the amended clause on `oStale` (nonzero stale
cache, primary reverted). -/
theorem c9_oracle_amended_witness :
    getPrice oStale 5 = (if 0 < oStale.lastPrices 5 then .ok (oStale.lastPrices 5)
      else .error .noFallbackPrice) :=
  c9_oracle_amended oStale 5 (by decide) rfl OracleErr.externalRevert rfl
